import Mathlib

/-!
Verification of the pitchtree-backend job/progress tracking subsystem.

The definitions below are a shallow embedding of the Go sources:
  * internal/progress/progress.go   (Tracker, ProgressUpdate)
  * internal/service/pitch_deck.go  (processDeck, handleError, cleanMarpContent)
  * main.go                         (legacy GET /api/progress/:deckId route)

Go maps are modelled as association lists, Go channels as the list of
strings delivered to their buffer, and the fallible external collaborators
(LLM call, file write, render tool, storage upload) as explicit
success/failure inputs to the orchestration run.
-/

/-- Lookup in an association map keyed by strings, mirroring a Go map read
`v, ok := m[k]` (result is some v when the key is present). -/
def lookupKey {α : Type} : List (String × α) → String → Option α
  | [], _ => none
  | (k', v) :: rest, k => if k' = k then some v else lookupKey rest k

/-- Removal of a key, mirroring a Go `delete(m, k)`. -/
def eraseKey {α : Type} : List (String × α) → String → List (String × α)
  | [], _ => []
  | (k', v) :: rest, k =>
    if k' = k then eraseKey rest k else (k', v) :: eraseKey rest k

/-- Insertion with overwrite, mirroring a Go map assignment `m[k] = v`. -/
def insertKey {α : Type} (m : List (String × α)) (k : String) (v : α) :
    List (String × α) :=
  (k, v) :: eraseKey m k

@[simp]
theorem lookupKey_eraseKey_self {α : Type} (m : List (String × α)) (k : String) :
    lookupKey (eraseKey m k) k = none := by
  induction m with
  | nil => rfl
  | cons p rest ih =>
    obtain ⟨k', v⟩ := p
    by_cases h : k' = k
    · simp [eraseKey, h, ih]
    · simp [eraseKey, lookupKey, h, ih]

theorem lookupKey_eraseKey_ne {α : Type} (m : List (String × α)) (k k' : String)
    (h : k' ≠ k) : lookupKey (eraseKey m k) k' = lookupKey m k' := by
  induction m with
  | nil => rfl
  | cons p rest ih =>
    obtain ⟨k₀, v⟩ := p
    by_cases h₀ : k₀ = k
    · subst h₀
      have hk : ¬(k₀ = k') := fun hh => h hh.symm
      simp [eraseKey, lookupKey, hk, ih]
    · by_cases h₁ : k₀ = k'
      · subst h₁
        simp [eraseKey, lookupKey, h₀]
      · simp [eraseKey, lookupKey, h₀, h₁, ih]

@[simp]
theorem lookupKey_insertKey_self {α : Type} (m : List (String × α)) (k : String)
    (v : α) : lookupKey (insertKey m k v) k = some v := by
  simp [insertKey, lookupKey]

theorem lookupKey_insertKey_ne {α : Type} (m : List (String × α)) (k k' : String)
    (v : α) (h : k' ≠ k) :
    lookupKey (insertKey m k v) k' = lookupKey m k' := by
  simp only [insertKey, lookupKey]
  rw [if_neg (fun hh => h hh.symm), lookupKey_eraseKey_ne m k k' h]

/-- One progress event, mirroring the Go struct ProgressUpdate in
internal/progress/progress.go (json tags: status, currentStep, message,
downloadUrl omitempty, viewUrl omitempty). -/
structure ProgressUpdate where
  Status : String
  CurrentStep : Int
  Message : String
  DownloadUrl : String := ""
  ViewUrl : String := ""
  deriving Repr, DecidableEq

/-- Hexadecimal digit for the low 4 bits, as used by Go's JSON encoder for
control-character escapes. -/
def hexDigit (n : Nat) : Char :=
  if n < 10 then Char.ofNat (48 + n) else Char.ofNat (87 + n)

/-- The backquote character (U+0060). -/
def backquote : Char := Char.ofNat 96

/-- Escape of a single character following Go's encoding/json default
(HTML-escaping) encoder. -/
def jsonEscapeChar (c : Char) : String :=
  if c = '"' then "\\\""
  else if c = '\\' then "\\\\"
  else if c = '\n' then "\\n"
  else if c = '\r' then "\\r"
  else if c = '\t' then "\\t"
  else if c = '<' then "\\u003c"
  else if c = '>' then "\\u003e"
  else if c = '&' then "\\u0026"
  else if c.toNat < 32 then
    String.mk ['\\', 'u', '0', '0', hexDigit (c.toNat / 16), hexDigit (c.toNat % 16)]
  else if c.toNat = 8232 then "\\u2028"
  else if c.toNat = 8233 then "\\u2029"
  else String.mk [c]

/-- JSON string literal for s, per Go's encoding/json. -/
def jsonString (s : String) : String :=
  "\"" ++ String.join (s.data.map jsonEscapeChar) ++ "\""

/-- Serialization of a ProgressUpdate, mirroring json.Marshal on the Go
struct: fields in declaration order, downloadUrl and viewUrl omitted when
empty (omitempty). -/
def MarshalProgressUpdate (u : ProgressUpdate) : String :=
  "\x7b\"status\":" ++ jsonString u.Status ++
  ",\"currentStep\":" ++ toString u.CurrentStep ++
  ",\"message\":" ++ jsonString u.Message ++
  (if u.DownloadUrl = "" then "" else ",\"downloadUrl\":" ++ jsonString u.DownloadUrl) ++
  (if u.ViewUrl = "" then "" else ",\"viewUrl\":" ++ jsonString u.ViewUrl) ++
  "\x7d"

/-- The progress Tracker state from internal/progress/progress.go: the map
from deck id to its channel (modelled as the list of serialized events
delivered to the channel buffer) and the map from deck id to owner. -/
structure Tracker where
  channels : List (String × List String)
  owners : List (String × String)
  deriving Repr, DecidableEq

/-- A Tracker as returned by NewTracker: both maps empty. -/
def Tracker.empty : Tracker := { channels := [], owners := [] }

/-- Tracker.CreateChannel from progress.go: allocates a fresh channel and
registers channels[id] = ch, owners[id] = userID (Go map assignment
overwrites any existing entries). -/
def Tracker.CreateChannel (t : Tracker) (id userID : String) : Tracker :=
  { channels := insertKey t.channels id ([] : List String)
    owners := insertKey t.owners id userID }

/-- Tracker.GetChannel from progress.go: returns the channel only when id
is registered and the recorded owner equals userID; both the unknown-id
case and the wrong-owner case return (nil, false), modelled as none. -/
def Tracker.GetChannel (t : Tracker) (id userID : String) : Option (List String) :=
  match lookupKey t.channels id with
  | none => none
  | some ch =>
    match lookupKey t.owners id with
    | none => none
    | some owner => if owner = userID then some ch else none

/-- Tracker.CloseChannel from progress.go: when id is registered, closes
the channel and deletes both map entries; otherwise does nothing. -/
def Tracker.CloseChannel (t : Tracker) (id : String) : Tracker :=
  match lookupKey t.channels id with
  | some _ => { channels := eraseKey t.channels id, owners := eraseKey t.owners id }
  | none => t

/-- Tracker.SendUpdate from progress.go: when id is unregistered, returns
the "no progress channel found" error and leaves the state untouched;
otherwise marshals the update and pushes the serialized form onto the
channel. The second component is the returned error (none = nil). -/
def Tracker.SendUpdate (t : Tracker) (id : String) (u : ProgressUpdate) :
    Tracker × Option String :=
  match lookupKey t.channels id with
  | none => (t, some ("no progress channel found for ID: " ++ id))
  | some buf =>
    ({ channels := insertKey t.channels id (buf ++ [MarshalProgressUpdate u])
       owners := t.owners }, none)

/-! ## Tracker operation sequences (for the registry-domain invariant) -/

/-- One call into the Tracker API of progress.go. -/
inductive TrackerOp where
  | create (id userID : String)
  | get (id userID : String)
  | send (id : String) (u : ProgressUpdate)
  | close (id : String)

/-- The effect of one Tracker call on the registry state (GetChannel reads
but never mutates; SendUpdate's returned error is dropped). -/
def applyOp (t : Tracker) : TrackerOp → Tracker
  | .create id userID => t.CreateChannel id userID
  | .get _ _ => t
  | .send id u => (t.SendUpdate id u).1
  | .close id => t.CloseChannel id

/-- Running a sequence of Tracker calls from a given state. -/
def runOps (t : Tracker) (ops : List TrackerOp) : Tracker :=
  ops.foldl applyOp t

/-- The channel map and the owner map register exactly the same job ids. -/
def SameDom (t : Tracker) : Prop :=
  ∀ id, (lookupKey t.channels id).isSome = (lookupKey t.owners id).isSome

theorem sameDom_applyOp (t : Tracker) (op : TrackerOp) (h : SameDom t) :
    SameDom (applyOp t op) := by
  cases op with
  | create id userID =>
    intro id'
    by_cases hid : id' = id
    · subst hid
      simp [applyOp, Tracker.CreateChannel]
    · simp [applyOp, Tracker.CreateChannel,
        lookupKey_insertKey_ne _ _ _ _ hid, h id']
  | get id userID => exact h
  | send id u =>
    intro id'
    simp only [applyOp]
    unfold Tracker.SendUpdate
    split
    next hc => exact h id'
    next buf hc =>
      by_cases hid : id' = id
      · subst hid
        have hmem := h id'
        rw [hc] at hmem
        simp [← hmem]
      · simp [lookupKey_insertKey_ne _ _ _ _ hid, h id']
  | close id =>
    intro id'
    simp only [applyOp]
    unfold Tracker.CloseChannel
    split
    next buf hc =>
      by_cases hid : id' = id
      · subst hid
        simp
      · simp [lookupKey_eraseKey_ne _ _ _ hid, h id']
    next hc => exact h id'

theorem sameDom_runOps (ops : List TrackerOp) (t : Tracker) (h : SameDom t) :
    SameDom (runOps t ops) := by
  induction ops generalizing t with
  | nil => exact h
  | cons op rest ih => exact ih (applyOp t op) (sameDom_applyOp t op h)

/-! ## Claims about the Tracker -/

/-- C1: after CreateChannel(jobID, ownerID), GetChannel(jobID, callerID)
returns the registered (fresh, empty) channel exactly when callerID equals
ownerID, and returns none otherwise; for a jobID that was never registered
GetChannel returns none for every caller, so the wrong-owner and
unknown-job outcomes are the same value. -/
theorem C1_getChannel_owner_gated (t : Tracker) (jobID ownerID callerID : String) :
    ((t.CreateChannel jobID ownerID).GetChannel jobID callerID
      = if callerID = ownerID then some [] else none)
    ∧ (lookupKey t.channels jobID = none → t.GetChannel jobID callerID = none) := by
  constructor
  · unfold Tracker.CreateChannel Tracker.GetChannel
    simp only [lookupKey_insertKey_self]
    by_cases h : callerID = ownerID
    · simp [h]
    · have h' : ¬(ownerID = callerID) := fun hh => h hh.symm
      simp [h, h']
  · intro h
    unfold Tracker.GetChannel
    rw [h]

theorem C1_witness :
    (Tracker.empty.CreateChannel "job1" "alice").GetChannel "job1" "bob" = none
    ∧ Tracker.empty.GetChannel "ghost" "alice" = none := by
  constructor
  · have h := (C1_getChannel_owner_gated Tracker.empty "job1" "alice" "bob").1
    simpa using h
  · exact (C1_getChannel_owner_gated Tracker.empty "ghost" "whoever" "alice").2 rfl

/-- C5 counterexample: with "job1" already registered to "alice",
CreateChannel("job1", "bob") does not fail: it silently succeeds and
replaces both the channel and the recorded owner, so the claim that
CreateChannel fails when the jobID is already registered (and never
silently replaces) is false on the code. -/
theorem C5_counterexample :
    (lookupKey (Tracker.empty.CreateChannel "job1" "alice").channels "job1").isSome = true
    ∧ ((Tracker.empty.CreateChannel "job1" "alice").CreateChannel "job1" "bob").owners
        = [("job1", "bob")]
    ∧ lookupKey ((Tracker.empty.CreateChannel "job1" "alice").CreateChannel "job1" "bob").owners
        "job1" = some "bob" := by
  refine ⟨rfl, rfl, rfl⟩

/-- C5 amended: CreateChannel never fails; for every tracker state it
registers a fresh empty channel and the given owner under jobID, silently
replacing any existing entries for that jobID, and leaves every other job
id's entries unchanged. -/
theorem C5_amended (t : Tracker) (id userID other : String) :
    lookupKey (t.CreateChannel id userID).channels id = some []
    ∧ lookupKey (t.CreateChannel id userID).owners id = some userID
    ∧ (other ≠ id →
        lookupKey (t.CreateChannel id userID).channels other = lookupKey t.channels other
        ∧ lookupKey (t.CreateChannel id userID).owners other = lookupKey t.owners other) := by
  refine ⟨?_, ?_, ?_⟩
  · simp [Tracker.CreateChannel]
  · simp [Tracker.CreateChannel]
  · intro hne
    exact ⟨lookupKey_insertKey_ne _ _ _ _ hne, lookupKey_insertKey_ne _ _ _ _ hne⟩

theorem C5_amended_witness :
    lookupKey ((Tracker.empty.CreateChannel "job1" "alice").CreateChannel "job1" "bob").channels
      "job1" = some []
    ∧ lookupKey ((Tracker.empty.CreateChannel "job1" "alice").CreateChannel "job1" "bob").owners
      "job1" = some "bob"
    ∧ lookupKey ((Tracker.empty.CreateChannel "job1" "alice").CreateChannel "other" "bob").owners
      "job1" = some "alice" := by
  refine ⟨(C5_amended (Tracker.empty.CreateChannel "job1" "alice") "job1" "bob" "x").1,
    (C5_amended (Tracker.empty.CreateChannel "job1" "alice") "job1" "bob" "x").2.1, ?_⟩
  have h := ((C5_amended (Tracker.empty.CreateChannel "job1" "alice") "other" "bob" "job1").2.2
    (by decide)).2
  rw [h]
  rfl

/-- C6: SendUpdate(jobID, event) returns the "no such job" error exactly
when jobID is unregistered, leaving the state untouched; when jobID is
registered it appends the JSON serialization of the event to that job's
channel, leaves the owner map unchanged, and returns no error. -/
theorem C6_sendUpdate (t : Tracker) (id : String) (u : ProgressUpdate) :
    (lookupKey t.channels id = none →
      t.SendUpdate id u = (t, some ("no progress channel found for ID: " ++ id)))
    ∧ (∀ buf, lookupKey t.channels id = some buf →
      t.SendUpdate id u =
        ({ channels := insertKey t.channels id (buf ++ [MarshalProgressUpdate u]),
           owners := t.owners }, none)) := by
  constructor
  · intro h
    unfold Tracker.SendUpdate
    rw [h]
  · intro buf h
    unfold Tracker.SendUpdate
    rw [h]

theorem C6_witness :
    (Tracker.empty.SendUpdate "ghost"
        { Status := "processing", CurrentStep := 1, Message := "m" }
      = (Tracker.empty, some "no progress channel found for ID: ghost"))
    ∧ ((Tracker.empty.CreateChannel "job1" "alice").SendUpdate "job1"
        { Status := "processing", CurrentStep := 1, Message := "m" }).2 = none := by
  constructor
  · exact (C6_sendUpdate Tracker.empty "ghost" _).1 rfl
  · rw [(C6_sendUpdate (Tracker.empty.CreateChannel "job1" "alice") "job1" _).2 [] rfl]

/-- C7: for a jobID that is registered, CloseChannel removes both the
channel-map entry and the owner-map entry, and GetChannel afterwards
returns not-found for every caller, including the original owner. -/
theorem C7_closeChannel (t : Tracker) (id : String)
    (h : (lookupKey t.channels id).isSome = true) :
    lookupKey (t.CloseChannel id).channels id = none
    ∧ lookupKey (t.CloseChannel id).owners id = none
    ∧ ∀ caller, (t.CloseChannel id).GetChannel id caller = none := by
  obtain ⟨buf, hb⟩ := Option.isSome_iff_exists.mp h
  unfold Tracker.CloseChannel
  rw [hb]
  refine ⟨by simp, by simp, ?_⟩
  intro caller
  unfold Tracker.GetChannel
  simp

theorem C7_witness :
    lookupKey ((Tracker.empty.CreateChannel "job1" "alice").CloseChannel "job1").channels
      "job1" = none
    ∧ lookupKey ((Tracker.empty.CreateChannel "job1" "alice").CloseChannel "job1").owners
      "job1" = none
    ∧ ((Tracker.empty.CreateChannel "job1" "alice").CloseChannel "job1").GetChannel
      "job1" "alice" = none := by
  have h := C7_closeChannel (Tracker.empty.CreateChannel "job1" "alice") "job1" rfl
  exact ⟨h.1, h.2.1, h.2.2 "alice"⟩

/-- C8: starting from a fresh Tracker, after every prefix of every
sequence of Tracker operations, the set of job ids registered in the
channel map equals the set registered in the owner map. -/
theorem C8_domains_agree (ops : List TrackerOp) (n : Nat) :
    SameDom (runOps Tracker.empty (ops.take n)) :=
  sameDom_runOps (ops.take n) Tracker.empty (fun _ => rfl)

/-! ## The orchestrator run (PitchDeckService.processDeck) -/

/-- Outcomes of the fallible collaborator calls made by one processDeck
run in internal/service/pitch_deck.go. Each error carries the message text
of the Go error. SavePitchDeckRecord and UpdateStatus failures are only
logged by the code and change nothing observable, so they are not inputs. -/
structure DeckEnv where
  genResult : Except String String
  saveResult : Except String Unit
  pdfResult : Except String Unit
  htmlResult : Except String Unit
  storageConfigured : Bool
  uploadPdfResult : Except String String
  uploadHtmlResult : Except String String
  deriving Repr

/-- Observable state threaded through one processDeck run: the Tracker,
the events successfully delivered to the job's channel in order, the
statuses handed to UpdateStatus in order, and whether CloseChannel was
invoked. -/
structure RunState where
  tracker : Tracker
  emitted : List ProgressUpdate
  persisted : List String
  closed : Bool
  deriving Repr, DecidableEq

/-- One s.progress.SendUpdate call whose returned error the service code
discards: on success the event reaches the channel; on error nothing
changes. -/
def emit (r : RunState) (id : String) (u : ProgressUpdate) : RunState :=
  match r.tracker.SendUpdate id u with
  | (t', none) => { r with tracker := t', emitted := r.emitted ++ [u] }
  | (_, some _) => r

/-- PitchDeckService.handleError: sends the failed event (CurrentStep is
left at the Go zero value 0) and persists status "failed". It does not
call CloseChannel. -/
def handleError (r : RunState) (deckID message errText : String) : RunState :=
  let r' := emit r deckID
    { Status := "failed", CurrentStep := 0, Message := message ++ ": " ++ errText }
  { r' with persisted := r'.persisted ++ ["failed"] }

/-- The tail of processDeck after the uploads: the completed event carrying
the two URLs, the UpdateStatus("completed") call, and the CloseChannel
call (pitch_deck.go lines 159-185). -/
def finishDeck (r : RunState) (deckID pdfURL htmlURL : String) : RunState :=
  let r₁ := emit r deckID
    { Status := "completed", CurrentStep := 5, Message := "Generation completed",
      DownloadUrl := pdfURL, ViewUrl := htmlURL }
  let r₂ := { r₁ with persisted := r₁.persisted ++ ["completed"] }
  { r₂ with tracker := r₂.tracker.CloseChannel deckID, closed := true }

/-- PitchDeckService.processDeck from internal/service/pitch_deck.go,
as a function of the collaborator outcomes. Image processing emits no
events and swallows its failures (processImages logs and skips), so it
does not appear. The deckInfo record mutations are not modelled. -/
def processDeck (env : DeckEnv) (deckID : String) (t : Tracker) : RunState :=
  let r₀ : RunState := { tracker := t, emitted := [], persisted := [], closed := false }
  let r₁ := emit r₀ deckID
    { Status := "processing", CurrentStep := 1, Message := "Processing images..." }
  let r₂ := emit r₁ deckID
    { Status := "processing", CurrentStep := 2, Message := "Generating content..." }
  match env.genResult with
  | .error e => handleError r₂ deckID "Failed to generate content" e
  | .ok _ =>
    match env.saveResult with
    | .error e => handleError r₂ deckID "Failed to save markdown" e
    | .ok _ =>
      let r₃ := emit r₂ deckID
        { Status := "processing", CurrentStep := 3, Message := "Converting to PDF and HTML..." }
      match env.pdfResult with
      | .error e => handleError r₃ deckID "Failed to convert to PDF" e
      | .ok _ =>
        match env.htmlResult with
        | .error e => handleError r₃ deckID "Failed to convert to HTML" e
        | .ok _ =>
          let r₄ := emit r₃ deckID
            { Status := "processing", CurrentStep := 4, Message := "Uploading files..." }
          if env.storageConfigured then
            match env.uploadPdfResult with
            | .error e => handleError r₄ deckID "Failed to upload PDF" e
            | .ok pdfURL =>
              match env.uploadHtmlResult with
              | .error e => handleError r₄ deckID "Failed to upload HTML" e
              | .ok htmlURL => finishDeck r₄ deckID pdfURL htmlURL
          else
            finishDeck r₄ deckID "" ""

/-- The sequence of events a processDeck run under env delivers to a
registered channel, in order. -/
def runTrace (env : DeckEnv) : List ProgressUpdate :=
  [{ Status := "processing", CurrentStep := 1, Message := "Processing images..." },
   { Status := "processing", CurrentStep := 2, Message := "Generating content..." }] ++
  match env.genResult with
  | .error e => [{ Status := "failed", CurrentStep := 0,
                   Message := "Failed to generate content: " ++ e }]
  | .ok _ =>
    match env.saveResult with
    | .error e => [{ Status := "failed", CurrentStep := 0,
                     Message := "Failed to save markdown: " ++ e }]
    | .ok _ =>
      [{ Status := "processing", CurrentStep := 3,
         Message := "Converting to PDF and HTML..." }] ++
      match env.pdfResult with
      | .error e => [{ Status := "failed", CurrentStep := 0,
                       Message := "Failed to convert to PDF: " ++ e }]
      | .ok _ =>
        match env.htmlResult with
        | .error e => [{ Status := "failed", CurrentStep := 0,
                         Message := "Failed to convert to HTML: " ++ e }]
        | .ok _ =>
          [{ Status := "processing", CurrentStep := 4, Message := "Uploading files..." }] ++
          if env.storageConfigured then
            match env.uploadPdfResult with
            | .error e => [{ Status := "failed", CurrentStep := 0,
                             Message := "Failed to upload PDF: " ++ e }]
            | .ok pdfURL =>
              match env.uploadHtmlResult with
              | .error e => [{ Status := "failed", CurrentStep := 0,
                               Message := "Failed to upload HTML: " ++ e }]
              | .ok htmlURL => [{ Status := "completed", CurrentStep := 5,
                                  Message := "Generation completed",
                                  DownloadUrl := pdfURL, ViewUrl := htmlURL }]
          else
            [{ Status := "completed", CurrentStep := 5,
               Message := "Generation completed" }]

theorem processDeck_emitted (env : DeckEnv) (deckID : String) (t : Tracker) :
    (processDeck env deckID t).emitted = []
    ∨ (processDeck env deckID t).emitted = runTrace env := by
  obtain ⟨gen, save, pdf, html, sc, up, uh⟩ := env
  cases hreg : lookupKey t.channels deckID with
  | none =>
    left
    cases gen <;> cases save <;> cases pdf <;> cases html <;> cases sc <;>
      cases up <;> cases uh <;>
      simp [processDeck, finishDeck, handleError, emit, Tracker.SendUpdate,
        Tracker.CloseChannel, hreg]
  | some buf =>
    right
    cases gen <;> cases save <;> cases pdf <;> cases html <;> cases sc <;>
      cases up <;> cases uh <;>
      simp [processDeck, finishDeck, handleError, runTrace, emit,
        Tracker.SendUpdate, Tracker.CloseChannel, hreg]

/-- A run environment in which the content-generation collaborator fails
and every other collaborator would succeed. -/
def envFailGen : DeckEnv :=
  { genResult := .error "boom", saveResult := .ok (), pdfResult := .ok (),
    htmlResult := .ok (), storageConfigured := true,
    uploadPdfResult := .ok "https://store/p.pdf",
    uploadHtmlResult := .ok "https://store/p.html" }

/-- Tracker state right after Create registered job "job1" to "alice". -/
def trackerJob1 : Tracker := Tracker.empty.CreateChannel "job1" "alice"

/-- Whether a list of step indices is monotonically non-decreasing. -/
def stepsNonDecr : List Int → Bool
  | a :: b :: rest => decide (a ≤ b) && stepsNonDecr (b :: rest)
  | _ => true

/-- C2 (code behavior at the failing input): in a run whose content
generation fails, the terminal failed event is emitted, yet CloseChannel
is never called, the Tracker registry still holds the job id, and a
subsequent SendUpdate for that job succeeds (returns no error) instead of
failing. -/
theorem C2_sendUpdate_succeeds_after_terminal :
    (processDeck envFailGen "job1" trackerJob1).emitted.map ProgressUpdate.Status
      = ["processing", "processing", "failed"]
    ∧ (processDeck envFailGen "job1" trackerJob1).closed = false
    ∧ (lookupKey (processDeck envFailGen "job1" trackerJob1).tracker.channels
        "job1").isSome = true
    ∧ ((processDeck envFailGen "job1" trackerJob1).tracker.SendUpdate "job1"
        { Status := "processing", CurrentStep := 9, Message := "late" }).2 = none := by
  refine ⟨rfl, rfl, rfl, rfl⟩

/-- C3 (code behavior at the failing input): in a run whose content
generation fails, exactly one failed event carrying the diagnostic is
emitted and status "failed" is persisted, but CloseChannel is never
invoked, contradicting the claim that the channel is closed. -/
theorem C3_failure_path_skips_close :
    ((processDeck envFailGen "job1" trackerJob1).emitted.filter
        (fun u => u.Status == "failed")).length = 1
    ∧ (processDeck envFailGen "job1" trackerJob1).emitted.getLast? =
        some { Status := "failed", CurrentStep := 0,
               Message := "Failed to generate content: boom" }
    ∧ (processDeck envFailGen "job1" trackerJob1).persisted = ["failed"]
    ∧ (processDeck envFailGen "job1" trackerJob1).closed = false := by
  refine ⟨rfl, rfl, rfl, rfl⟩

/-- C4 counterexample: in a run whose content generation fails, the
emitted CurrentStep sequence is 1, 2, 0 — the terminal failed event
carries step 0 — so the sequence of CurrentStep values is not
monotonically non-decreasing. -/
theorem C4_counterexample :
    (processDeck envFailGen "job1" trackerJob1).emitted.map ProgressUpdate.CurrentStep
      = [1, 2, 0]
    ∧ stepsNonDecr ((processDeck envFailGen "job1" trackerJob1).emitted.map
        ProgressUpdate.CurrentStep) = false := by
  refine ⟨rfl, rfl⟩

/-- C4 amended: within a single run, the CurrentStep values of the events
other than a terminal failed event form a monotonically non-decreasing
sequence, while a terminal failed event always carries CurrentStep 0
(handleError leaves the field unset), which breaks monotonicity whenever
it follows a processing event with a positive step. -/
theorem C4_amended (env : DeckEnv) (deckID : String) (t : Tracker) :
    stepsNonDecr (((processDeck env deckID t).emitted.filter
        (fun u => u.Status != "failed")).map ProgressUpdate.CurrentStep) = true
    ∧ ∀ u ∈ (processDeck env deckID t).emitted, u.Status = "failed" →
        u.CurrentStep = 0 := by
  rcases processDeck_emitted env deckID t with h | h <;> rw [h]
  · exact ⟨rfl, by intro u hu; cases hu⟩
  · obtain ⟨gen, save, pdf, html, sc, up, uh⟩ := env
    refine ⟨?_, ?_⟩ <;>
      cases gen <;> cases save <;> cases pdf <;> cases html <;> cases sc <;>
      cases up <;> cases uh <;>
      simp [runTrace, stepsNonDecr]

theorem C4_amended_witness :
    stepsNonDecr (((processDeck envFailGen "job1" trackerJob1).emitted.filter
        (fun u => u.Status != "failed")).map ProgressUpdate.CurrentStep) = true
    ∧ ({ Status := "failed", CurrentStep := 0,
         Message := "Failed to generate content: boom"} : ProgressUpdate).CurrentStep
        = 0 := by
  refine ⟨(C4_amended envFailGen "job1" trackerJob1).1, ?_⟩
  exact (C4_amended envFailGen "job1" trackerJob1).2
    { Status := "failed", CurrentStep := 0,
      Message := "Failed to generate content: boom"} (by decide) rfl

/-! ## cleanMarpContent (internal/service/pitch_deck.go) -/

/-- Splitting a character list at each occurrence of the separator regexp
of cleanMarpContent: a newline optionally preceded by a carriage return
(a lone carriage return is not a separator), as
regexp.MustCompile splitting with limit -1 does. -/
def splitSep : List Char → List (List Char)
  | [] => [[]]
  | '\r' :: '\n' :: rest => [] :: splitSep rest
  | '\n' :: rest => [] :: splitSep rest
  | c :: rest =>
    match splitSep rest with
    | [] => [[c]]
    | l :: ls => (c :: l) :: ls

/-- The lines of a text, split at each occurrence of the line separator. -/
def splitLines (s : String) : List String :=
  (splitSep s.data).map (fun l => String.mk l)

/-- Whether a line begins with three backquotes (strings.HasPrefix with
the triple-backquote marker): its first three characters exist and are
all the backquote character. -/
def isFenceLine (line : String) : Bool :=
  match line.data with
  | c1 :: c2 :: c3 :: _ => c1 = backquote && c2 = backquote && c3 = backquote
  | _ => false

/-- The loop of cleanMarpContent: runs over the lines with their indices,
threading (firstBacktickLine, lastBacktickLine), both starting at -1. -/
def fenceScanAux : Nat → Int × Int → List String → Int × Int
  | _, fl, [] => fl
  | i, fl, line :: rest =>
    fenceScanAux (i + 1)
      (if isFenceLine line then
        (if fl.1 = -1 then ((i : Int), (i : Int)) else (fl.1, (i : Int)))
      else fl) rest

/-- The (firstBacktickLine, lastBacktickLine) pair computed by the loop of
cleanMarpContent, with -1 meaning not found. -/
def fenceScan (lines : List String) : Int × Int :=
  fenceScanAux 0 (-1, -1) lines

/-- cleanMarpContent from internal/service/pitch_deck.go: when a first and
a strictly later last backquote line exist, the slice of lines strictly
between them joined by newlines; otherwise the whole text. -/
def cleanMarpContent (text : String) : String :=
  if (fenceScan (splitLines text)).1 ≠ -1 ∧ (fenceScan (splitLines text)).2 ≠ -1
      ∧ (fenceScan (splitLines text)).2 > (fenceScan (splitLines text)).1 then
    String.intercalate "\n"
      (((splitLines text).take (fenceScan (splitLines text)).2.toNat).drop
        ((fenceScan (splitLines text)).1.toNat + 1))
  else text

/-- The indices, from i upward, of the lines beginning with three
backquotes: the spec-side description of where the fence lines are. -/
def fenceIdxFrom : Nat → List String → List Nat
  | _, [] => []
  | i, line :: rest =>
    if isFenceLine line then i :: fenceIdxFrom (i + 1) rest
    else fenceIdxFrom (i + 1) rest

/-- The last element of x :: xs. -/
def lastOf : Nat → List Nat → Nat
  | x, [] => x
  | _, y :: ys => lastOf y ys

theorem lastOf_mem (fs : List Nat) : ∀ f : Nat, fs ≠ [] → lastOf f fs ∈ fs := by
  induction fs with
  | nil => intro f h; exact absurd rfl h
  | cons y ys ih =>
    intro f _
    cases hys : ys with
    | nil =>
      subst hys
      simp [lastOf]
    | cons z zs =>
      subst hys
      have hmem := ih y (by simp)
      simp only [lastOf]
      exact List.mem_cons_of_mem y hmem

theorem fenceScanAux_spec (lines : List String) :
    ∀ (i : Nat) (a b : Int),
      fenceScanAux i (a, b) lines =
        match fenceIdxFrom i lines with
        | [] => (a, b)
        | f :: fs => ((if a = -1 then (f : Int) else a), ((lastOf f fs : Nat) : Int)) := by
  induction lines with
  | nil => intro i a b; rfl
  | cons line rest ih =>
    intro i a b
    by_cases hf : isFenceLine line
    · simp only [fenceScanAux, fenceIdxFrom, hf, if_true]
      by_cases ha : a = -1
      · rw [if_pos ha, ih]
        cases hrest : fenceIdxFrom (i + 1) rest with
        | nil => simp [ha, lastOf]
        | cons f' fs' =>
          have hi : ((i : Nat) : Int) ≠ -1 := by omega
          simp [ha, hi, lastOf]
      · rw [if_neg ha, ih]
        cases hrest : fenceIdxFrom (i + 1) rest with
        | nil => simp [ha, lastOf]
        | cons f' fs' => simp [ha, lastOf]
    · simp only [fenceScanAux, fenceIdxFrom, hf, if_false, Bool.false_eq_true]
      exact ih (i + 1) a b

theorem fenceIdxFrom_ge (lines : List String) :
    ∀ (j x : Nat), x ∈ fenceIdxFrom j lines → j ≤ x := by
  induction lines with
  | nil => intro j x hx; simp [fenceIdxFrom] at hx
  | cons line rest ih =>
    intro j x hx
    by_cases hf : isFenceLine line
    · simp only [fenceIdxFrom, hf, if_true, List.mem_cons] at hx
      rcases hx with rfl | hx
      · exact le_refl x
      · exact le_trans (by omega) (ih (j + 1) x hx)
    · simp only [fenceIdxFrom, hf, if_false, Bool.false_eq_true] at hx
      exact le_trans (by omega) (ih (j + 1) x hx)

theorem fenceIdxFrom_head_lt (lines : List String) :
    ∀ (i f : Nat) (fs : List Nat), fenceIdxFrom i lines = f :: fs →
      ∀ x ∈ fs, f < x := by
  induction lines with
  | nil => intro i f fs h; simp [fenceIdxFrom] at h
  | cons line rest ih =>
    intro i f fs h x hx
    by_cases hf : isFenceLine line
    · simp only [fenceIdxFrom, hf, if_true, List.cons.injEq] at h
      obtain ⟨h1, h2⟩ := h
      have hge := fenceIdxFrom_ge rest (i + 1) x (by rw [h2]; exact hx)
      omega
    · simp only [fenceIdxFrom, hf, if_false, Bool.false_eq_true] at h
      exact ih (i + 1) f fs h x hx

/-- C9: cleanMarpContent strips surrounding code fences. When the text has
at least two distinct lines beginning with three backquotes — the fence
indices are f :: fs with fs nonempty — the result is exactly the lines
strictly between the first such line f and the last such line, joined by
newlines; with fewer than two fence lines the text is returned unchanged. -/
theorem C9_cleanMarpContent (text : String) :
    (∀ (f : Nat) (fs : List Nat),
      fenceIdxFrom 0 (splitLines text) = f :: fs → fs ≠ [] →
      cleanMarpContent text =
        String.intercalate "\n"
          (((splitLines text).take (lastOf f fs)).drop (f + 1)))
    ∧ ((fenceIdxFrom 0 (splitLines text)).length < 2 →
        cleanMarpContent text = text) := by
  constructor
  · intro f fs hfs hne
    have hscan : fenceScan (splitLines text) = ((f : Int), ((lastOf f fs : Nat) : Int)) := by
      unfold fenceScan
      rw [fenceScanAux_spec, hfs]
      simp
    have hlt : f < lastOf f fs :=
      fenceIdxFrom_head_lt (splitLines text) 0 f fs hfs (lastOf f fs)
        (lastOf_mem fs f hne)
    have h1 : (f : Int) ≠ -1 := by omega
    have h2 : ((lastOf f fs : Nat) : Int) ≠ -1 := by omega
    have h3 : ((lastOf f fs : Nat) : Int) > (f : Int) := by exact_mod_cast hlt
    unfold cleanMarpContent
    rw [hscan]
    rw [if_pos ⟨h1, h2, h3⟩]
    simp
  · intro hlen
    cases hfs : fenceIdxFrom 0 (splitLines text) with
    | nil =>
      have hscan : fenceScan (splitLines text) = (-1, -1) := by
        unfold fenceScan
        rw [fenceScanAux_spec, hfs]
      unfold cleanMarpContent
      rw [hscan]
      simp
    | cons f fs =>
      rw [hfs] at hlen
      have hfs0 : fs = [] := by
        cases fs with
        | nil => rfl
        | cons y ys => simp at hlen; omega
      subst hfs0
      have hscan : fenceScan (splitLines text) = ((f : Int), (f : Int)) := by
        unfold fenceScan
        rw [fenceScanAux_spec, hfs]
        simp [lastOf]
      unfold cleanMarpContent
      rw [hscan]
      simp

theorem C9_witness :
    cleanMarpContent "```marp\nhello\nworld\n```" = "hello\nworld"
    ∧ cleanMarpContent "plain text\nno fences" = "plain text\nno fences" := by
  constructor
  · have h := (C9_cleanMarpContent "```marp\nhello\nworld\n```").1 0 [3]
      (by decide) (by decide)
    rw [h]
    rfl
  · exact (C9_cleanMarpContent "plain text\nno fences").2 (by decide)

/-! ## Legacy progress route (main.go, GET /api/progress/:deckId) -/

/-- What the legacy progress handler does with a request. -/
inductive ProgressDecision where
  | stream
  | forbidden
  | persistedPath
  deriving Repr, DecidableEq

/-- The in-flight branch of the legacy GET /api/progress/:deckId handler
in main.go: the resolved userID is empty when the Authorization header is
absent or its token is invalid. With the deck id in the progress-channel
map, access is forbidden when no owner is recorded or when the resolved
userID is nonempty and differs from the recorded owner; otherwise the
progress events are streamed. An id not in the channel map falls through
to the persisted-record path. -/
def legacyProgressDecision (progressChannels : List (String × List String))
    (progressOwners : List (String × String)) (deckID userID : String) :
    ProgressDecision :=
  match lookupKey progressChannels deckID with
  | some _ =>
    match lookupKey progressOwners deckID with
    | none => .forbidden
    | some deckOwnerID =>
      if userID ≠ "" ∧ deckOwnerID ≠ userID then .forbidden else .stream
  | none => .persistedPath

/-- C10: on the legacy progress route, for every in-flight job (id present
in the channel map with a recorded owner), a request whose credential is
absent or invalid — the resolved userID is the empty string — passes the
ownership check and is streamed the job's progress events, even though the
recorded owner is a different, nonempty identity. -/
theorem C10_empty_user_streams (progressChannels : List (String × List String))
    (progressOwners : List (String × String)) (deckID owner : String)
    (buf : List String)
    (hc : lookupKey progressChannels deckID = some buf)
    (ho : lookupKey progressOwners deckID = some owner)
    (howner : owner ≠ "") :
    legacyProgressDecision progressChannels progressOwners deckID "" =
      ProgressDecision.stream := by
  unfold legacyProgressDecision
  rw [hc, ho]
  simp

theorem C10_witness :
    legacyProgressDecision [("deck1", [])] [("deck1", "alice")] "deck1" "" =
      ProgressDecision.stream :=
  C10_empty_user_streams [("deck1", [])] [("deck1", "alice")] "deck1" "alice" []
    rfl rfl (by decide)
